import Mathlib

/-!
Verification development for the PyQt5 photo editor
(`src/PyQt5_Photo_Editor_toplu.py`).

The working image representation of the program is an 8-bit RGB raster.
We embed pixels as triples of naturals (channel values, 0..255 where the
source guarantees it), flat pixel lists for the per-pixel pipeline and the
document history, and row lists for the spatially-aware portrait retouch.
Floating-point arithmetic of the source (numpy float32/float64) is
idealised as exact real / rational arithmetic; the final `astype(uint8)`
conversions are modelled by floors, matching C truncation of the
non-negative clipped values produced by the source.
-/

namespace PhotoEditor

abbrev Pixel := ℕ × ℕ × ℕ

abbrev Img := List Pixel

/-- Adjustment record of `ImageDocument.__init__` (source lines 98-105):
brightness, contrast, saturation in -100..100, kelvin in 2000..10000,
shadows, highlights in -100..100 (ranges enforced only by the sliders). -/
structure Adjustments where
  brightness : ℤ
  contrast : ℤ
  saturation : ℤ
  kelvin : ℤ
  shadows : ℤ
  highlights : ℤ
deriving DecidableEq

/-- Default adjustment values (source lines 98-105 and
`reset_adjustments`, line 114-115): everything 0 except kelvin = 6500. -/
def defaultAdjustments : Adjustments :=
  { brightness := 0, contrast := 0, saturation := 0,
    kelvin := 6500, shadows := 0, highlights := 0 }

/-- The `clamp` helper inside `kelvin_to_rgb_gains` (source lines 39-40):
`max(lo, min(hi, v))` with lo = 0, hi = 255. -/
noncomputable def clampK (v : ℝ) : ℝ := max 0 (min 255 v)

/-- `kelvin_to_rgb_gains` (source lines 37-58).  `temp = kelvin / 100`;
red is 255 for `temp <= 66`, otherwise a clamped power law; green is a
clamped logarithmic / power law; blue is 255 for `temp >= 66`, 0 for
`temp <= 19`, otherwise a clamped logarithm.  Each is divided by 255.
`math.log` and `**` are embedded as `Real.log` and real `rpow`. -/
noncomputable def kelvin_to_rgb_gains (kelvin : ℤ) : ℝ × ℝ × ℝ :=
  let temp : ℝ := (kelvin : ℝ) / 100
  ((if temp ≤ 66 then (255 : ℝ)
    else clampK (329.698727446 * (temp - 60) ^ (-0.1332047592 : ℝ))) / 255,
   (clampK (if temp ≤ 66 then 99.4708025861 * Real.log temp - 161.1195681661
     else 288.1221695283 * (temp - 60) ^ (-0.0755148492 : ℝ))) / 255,
   (if 66 ≤ temp then (255 : ℝ)
    else if temp ≤ 19 then (0 : ℝ)
    else clampK (138.5177312231 * Real.log (temp - 10) - 305.0447927307)) / 255)

/-- `np.clip(x, 0, 255)` as used throughout `apply_adjustments_preview`:
`np.minimum(np.maximum(x, 0), 255)`. -/
noncomputable def clip255 (x : ℝ) : ℝ := min 255 (max 0 x)

/-- The `tone_pixel` helper of `apply_adjustments_preview` (source lines
377-389), acting on one channel value `a` of one pixel: shadow lift below
the 0.6 threshold and highlight compression above the 0.4 threshold, each
skipped when its parameter is zero, final `np.clip(t*255, 0, 255)`. -/
noncomputable def tone_channel (shadows highlights : ℤ) (a : ℝ) : ℝ :=
  let t : ℝ := a / 255
  let s : ℝ := (shadows : ℝ) / 100
  let h : ℝ := (highlights : ℝ) / 100
  let t1 : ℝ :=
    if s ≠ 0 then
      let lift := s * 0.6
      let w := min 1 (max 0 ((t - 0) / (0.6 - 0)))
      t + lift * (1 - w) * (1 - t)
    else t
  let t2 : ℝ :=
    if h ≠ 0 then
      let comp := h * 0.6
      let w2 := min 1 (max 0 ((t1 - 0.4) / (1.0 - 0.4)))
      t1 - comp * w2 * t1
    else t1
  clip255 (t2 * 255)

/-- The per-pixel arithmetic of `apply_adjustments_preview` (source lines
360-391), in source order: white balance (multiply each channel by its
Kelvin gain, clip), brightness (add, clip), contrast
(`(x-128)*c+128`, clip), saturation (skipped when zero; luma-based remap,
clip), shadows/highlights (skipped when both zero). -/
noncomputable def adjust_channels (ad : Adjustments) (r g b : ℝ) : ℝ × ℝ × ℝ :=
  let gains := kelvin_to_rgb_gains ad.kelvin
  let r1 := clip255 (r * gains.1)
  let g1 := clip255 (g * gains.2.1)
  let b1 := clip255 (b * gains.2.2)
  let r2 := clip255 (r1 + (ad.brightness : ℝ))
  let g2 := clip255 (g1 + (ad.brightness : ℝ))
  let b2 := clip255 (b1 + (ad.brightness : ℝ))
  let c : ℝ := 1 + (ad.contrast : ℝ) / 100
  let r3 := clip255 ((r2 - 128) * c + 128)
  let g3 := clip255 ((g2 - 128) * c + 128)
  let b3 := clip255 ((b2 - 128) * c + 128)
  let sat : ℝ × ℝ × ℝ :=
    if ad.saturation ≠ 0 then
      let s : ℝ := (ad.saturation : ℝ) / 100
      let lum := 0.2126 * r3 + 0.7152 * g3 + 0.0722 * b3
      (clip255 (lum + (r3 - lum) * (1 + s)),
       clip255 (lum + (g3 - lum) * (1 + s)),
       clip255 (lum + (b3 - lum) * (1 + s)))
    else (r3, g3, b3)
  if ad.shadows ≠ 0 ∨ ad.highlights ≠ 0 then
    (tone_channel ad.shadows ad.highlights sat.1,
     tone_channel ad.shadows ad.highlights sat.2.1,
     tone_channel ad.shadows ad.highlights sat.2.2)
  else sat

/-- `arr.astype(np.uint8)` on a clipped (hence non-negative) float value:
truncation toward zero, i.e. the floor. -/
noncomputable def floorByte (x : ℝ) : ℕ := (Int.floor x).toNat

/-- One pixel of the preview produced by `apply_adjustments_preview`
(source lines 360-392): the float pipeline followed by the uint8 cast. -/
noncomputable def preview_pixel (ad : Adjustments) (p : Pixel) : Pixel :=
  let q := adjust_channels ad (p.1 : ℝ) (p.2.1 : ℝ) (p.2.2 : ℝ)
  (floorByte q.1, floorByte q.2.1, floorByte q.2.2)

/-- The whole preview image `img2` of `apply_adjustments_preview`: the
per-pixel pipeline mapped over the baseline image. -/
noncomputable def previewImage (ad : Adjustments) (img : Img) : Img :=
  img.map (preview_pixel ad)

/-- `ImageDocument` (source lines 91-115): the history of committed
snapshots (oldest first, as in the python list), the currently displayed
image `pil`, and the live adjustment record. -/
structure Document where
  history : List Img
  pil : Img
  adjustments : Adjustments
deriving DecidableEq

/-- `ImageDocument.push` (source lines 106-107): append the current image
to the end of the history. -/
def Document.push (doc : Document) : Document :=
  { doc with history := doc.history ++ [doc.pil] }

/-- `ImageDocument.undo` (source lines 108-113): when more than one entry
exists, pop the last entry, set `pil` to the new last entry and return
`True`; otherwise return `False` without changes. -/
def Document.undo (doc : Document) : Document × Bool :=
  if 1 < doc.history.length then
    ({ doc with history := doc.history.dropLast,
                pil := doc.history.dropLast.getLastD [] }, true)
  else (doc, false)

/-- `ImageDocument.reset_adjustments` (source lines 114-115): every key
back to its default (6500 for kelvin, 0 otherwise). -/
def Document.reset_adjustments (doc : Document) : Document :=
  { doc with adjustments := defaultAdjustments }

/-- `PhotoEditorMain.apply_adjustments_preview` (source lines 354-394) as
a document transition: recompute the preview from `history[-1]` (the
clean baseline) and the stored adjustments, store it in `pil`, and leave
history and adjustments untouched (the result is deliberately not
pushed). -/
noncomputable def apply_adjustments_preview (doc : Document) : Document :=
  { doc with pil := previewImage doc.adjustments (doc.history.getLastD []) }

/-- The six adjustment keys reachable from `on_slider`'s `mapping`
(source lines 344-347). -/
inductive ParamKey
  | brightness | contrast | saturation | kelvin | shadows | highlights
deriving DecidableEq

/-- `doc.adjustments[key] = value` (source line 351): store the raw
slider value; no clamping happens here or later in the pipeline. -/
def setParam (k : ParamKey) (v : ℤ) (ad : Adjustments) : Adjustments :=
  match k with
  | ParamKey.brightness => { ad with brightness := v }
  | ParamKey.contrast => { ad with contrast := v }
  | ParamKey.saturation => { ad with saturation := v }
  | ParamKey.kelvin => { ad with kelvin := v }
  | ParamKey.shadows => { ad with shadows := v }
  | ParamKey.highlights => { ad with highlights := v }

/-- `PhotoEditorMain.on_slider` (source lines 340-352): store the value
under the mapped key, then recompute the preview. -/
noncomputable def on_slider (k : ParamKey) (v : ℤ) (doc : Document) : Document :=
  apply_adjustments_preview { doc with adjustments := setParam k v doc.adjustments }

/-- The `orange` branch of `apply_effect` (source lines 411-415):
`r.point(lambda v: min(255, v+12))`, `g.point(lambda v: min(255, v+6))`. -/
def effectOrange (img : Img) : Img :=
  img.map fun p => (min 255 (p.1 + 12), min 255 (p.2.1 + 6), p.2.2)

/-- The `red` branch of `apply_effect` (source lines 416-419):
`r.point(lambda v: min(255, v+18))`. -/
def effectRed (img : Img) : Img :=
  img.map fun p => (min 255 (p.1 + 18), p.2.1, p.2.2)

/-- The `blue` branch of `apply_effect` (source lines 420-423):
`b.point(lambda v: min(255, v+18))`. -/
def effectBlue (img : Img) : Img :=
  img.map fun p => (p.1, p.2.1, min 255 (p.2.2 + 18))

/-- The image transforms of `apply_effect` that the source delegates to
the PIL / numpy / OpenCV library collaborators (UnsharpMask, Brightness,
Sharpness, the vignette radial mask, bilateralFilter).  The document
claims verified here depend only on how their results are committed, so
they are carried as opaque function parameters of the embedding. -/
structure Filters where
  sharpen : Img → Img
  brighten : Img → Img
  clarity : Img → Img
  vignette : Img → Img
  noise : Img → Img

/-- The effect names `apply_effect` dispatches on (source lines 409-440,
wired to the buttons on lines 214-224). -/
def effectCatalog : List String :=
  ["sharpen", "orange", "red", "blue", "brighten", "clarity", "vignette", "noise"]

/-- The commit tail of `apply_effect` (source lines 443-446):
`doc.pil = img; doc.push(); doc.reset_adjustments()`. -/
def commitEffectImage (doc : Document) (img : Img) : Document :=
  Document.reset_adjustments (Document.push { doc with pil := img })

/-- `PhotoEditorMain.apply_effect` (source lines 404-447): starts from
`img = doc.pil.copy()` (the currently displayed image, i.e. the live
preview), dispatches on the effect name, and commits; an unknown name
returns before any mutation (line 441-442). -/
def apply_effect (F : Filters) (effect : String) (doc : Document) : Document :=
  if effect = "sharpen" then commitEffectImage doc (F.sharpen doc.pil)
  else if effect = "orange" then commitEffectImage doc (effectOrange doc.pil)
  else if effect = "red" then commitEffectImage doc (effectRed doc.pil)
  else if effect = "blue" then commitEffectImage doc (effectBlue doc.pil)
  else if effect = "brighten" then commitEffectImage doc (F.brighten doc.pil)
  else if effect = "clarity" then commitEffectImage doc (F.clarity doc.pil)
  else if effect = "vignette" then commitEffectImage doc (F.vignette doc.pil)
  else if effect = "noise" then commitEffectImage doc (F.noise doc.pil)
  else doc

/-- The image transform `apply_effect` selects for a given name (identity
for names outside the catalog, which the source never commits). -/
def effectFn (F : Filters) (effect : String) : Img → Img :=
  if effect = "sharpen" then F.sharpen
  else if effect = "orange" then effectOrange
  else if effect = "red" then effectRed
  else if effect = "blue" then effectBlue
  else if effect = "brighten" then F.brighten
  else if effect = "clarity" then F.clarity
  else if effect = "vignette" then F.vignette
  else if effect = "noise" then F.noise
  else id

/-- `PhotoEditorMain.rotate90` (source lines 449-454): rotate the
displayed image (a PIL library call, carried as a parameter) and push.
Note: no `reset_adjustments` call. -/
def rotate90 (rot : Img → Img) (doc : Document) : Document :=
  Document.push { doc with pil := rot doc.pil }

/-- `PhotoEditorMain.flip_horizontal` (source lines 456-461):
`ImageOps.mirror` (library call, carried as a parameter) and push.
Note: no `reset_adjustments` call. -/
def flip_horizontal (fl : Img → Img) (doc : Document) : Document :=
  Document.push { doc with pil := fl doc.pil }

/-- `PhotoEditorMain.auto_enhance` (source lines 500-507): contrast 1.08
then brightness 1.06 (PIL library calls, carried as one parameter) and
push.  Note: no `reset_adjustments` call. -/
def auto_enhance (enh : Img → Img) (doc : Document) : Document :=
  Document.push { doc with pil := enh doc.pil }

/-- `PhotoEditorMain.portrait_mode` as a document transition (source
lines 471-498): transform the displayed image (pixel model below) and
push.  Note: no `reset_adjustments` call. -/
def portrait_mode (pm : Img → Img) (doc : Document) : Document :=
  Document.push { doc with pil := pm doc.pil }

/-- The luma expression of `compute_histogram` (source line 66):
`(0.2126*r + 0.7152*g + 0.0722*b).astype(np.uint8)`, i.e. the rounded
down value of the exact decimal-weighted sum. -/
def lumaFloor (p : Pixel) : ℕ :=
  (2126 * p.1 + 7152 * p.2.1 + 722 * p.2.2) / 10000

/-- One bin of `np.bincount` over the red channel (source line 68). -/
def histCountR (img : Img) (v : ℕ) : ℕ :=
  img.countP fun p => decide (p.1 = v)

/-- One bin of `np.bincount` over the green channel (source line 69). -/
def histCountG (img : Img) (v : ℕ) : ℕ :=
  img.countP fun p => decide (p.2.1 = v)

/-- One bin of `np.bincount` over the blue channel (source line 70). -/
def histCountB (img : Img) (v : ℕ) : ℕ :=
  img.countP fun p => decide (p.2.2 = v)

/-- One bin of `np.bincount` over the luma values (source line 71). -/
def histCountL (img : Img) (v : ℕ) : ℕ :=
  img.countP fun p => decide (lumaFloor p = v)

/-- `compute_histogram` (source lines 60-72): the four per-value count
arrays (as functions on bin index) and the total pixel count. -/
def compute_histogram (img : Img) :
    (ℕ → ℕ) × (ℕ → ℕ) × (ℕ → ℕ) × (ℕ → ℕ) × ℕ :=
  (histCountR img, histCountG img, histCountB img, histCountL img, img.length)

/-- Row-major 2-D image, used for the spatially-aware portrait retouch
(`portrait_mode`, source lines 471-498). -/
abbrev Grid := List (List Pixel)

/-- Clamp an index into `0 .. n-1` (edge replication at the borders of
the smoothing neighbourhood). -/
def clampIdx (n : ℕ) (i : ℤ) : ℕ := (max 0 (min ((n : ℤ) - 1) i)).toNat

/-- Pixel lookup with clamped (edge-replicated) coordinates. -/
def gridGet (g : Grid) (y x : ℤ) : Pixel :=
  let row := g.getD (clampIdx g.length y) []
  row.getD (clampIdx row.length x) (0, 0, 0)

/-- L1 colour distance between two pixels, the colour-proximity argument
of the bilateral weight. -/
def colorDist (p q : Pixel) : ℕ :=
  ((p.1 : ℤ) - q.1).natAbs + ((p.2.1 : ℤ) - q.2.1).natAbs +
    ((p.2.2 : ℤ) - q.2.2).natAbs

/-- The square neighbourhood offsets of a smoothing window of the given
radius (`cv2.bilateralFilter` with `d = 9` uses radius 4). -/
def offsets (radius : ℕ) : List (ℤ × ℤ) :=
  (List.range (2 * radius + 1)).flatMap fun dy =>
    (List.range (2 * radius + 1)).map fun dx =>
      ((dy : ℤ) - radius, (dx : ℤ) - radius)

/-- Saturating cast of a rounded rational back to a byte value. -/
def roundByte (q : ℚ) : ℕ := (min 255 (max 0 (round q))).toNat

/-- One output pixel of `cv2.bilateralFilter` (source lines 491 and 494):
the normalised weighted average of the neighbourhood, with the weight
kernel (the product of the spatial and colour-range Gaussians of the
library, with its fixed sigmas) carried as the parameter `k`. -/
def bilateralAt (k : ℤ → ℤ → ℕ → ℚ) (radius : ℕ) (g : Grid) (y x : ℕ) : Pixel :=
  let c := gridGet g y x
  let ws := (offsets radius).map fun o =>
    let q := gridGet g ((y : ℤ) + o.1) ((x : ℤ) + o.2)
    (k o.1 o.2 (colorDist c q), q)
  let den : ℚ := (ws.map Prod.fst).sum
  (roundByte ((ws.map fun wp => wp.1 * (wp.2.1 : ℚ)).sum / den),
   roundByte ((ws.map fun wp => wp.1 * (wp.2.2.1 : ℚ)).sum / den),
   roundByte ((ws.map fun wp => wp.1 * (wp.2.2.2 : ℚ)).sum / den))

/-- `cv2.bilateralFilter` over a whole grid. -/
def bilateralFilter (k : ℤ → ℤ → ℕ → ℚ) (radius : ℕ) (g : Grid) : Grid :=
  (List.range g.length).map fun y =>
    (List.range (g.getD y []).length).map fun x => bilateralAt k radius g y x

/-- The global channel rebalance of `portrait_mode` (source lines
483-487): red times 0.95 (= 19/20), green and blue times 1.05 (= 21/20)
saturated at 255, then the uint8 cast (floor); the nat divisions are
exactly those floors. -/
def rebalance_pixel (p : Pixel) : Pixel :=
  (19 * p.1 / 20, min 255 (21 * p.2.1 / 20), min 255 (21 * p.2.2 / 20))

/-- The rebalance applied to the whole frame. -/
def rebalanceImage (g : Grid) : Grid := g.map (List.map rebalance_pixel)

/-- `cv2.addWeighted(roi, 0.6, blurred, 0.4, 0)` on one pixel: the 3/5
against 2/5 blend, rounded to the nearest integer. -/
def blendPixel (p q : Pixel) : Pixel :=
  (roundByte ((3 * (p.1 : ℚ) + 2 * (q.1 : ℚ)) / 5),
   roundByte ((3 * (p.2.1 : ℚ) + 2 * (q.2.1 : ℚ)) / 5),
   roundByte ((3 * (p.2.2 : ℚ) + 2 * (q.2.2 : ℚ)) / 5))

/-- The per-face step of `portrait_mode` (source lines 489-492): smooth
the rectangular region of interest and blend it back at 0.6/0.4.  The
rectangle is `(x, y, w, h)` as returned by the face locator. -/
def applyFace (k : ℤ → ℤ → ℕ → ℚ) (radius : ℕ) (g : Grid)
    (f : ℕ × ℕ × ℕ × ℕ) : Grid :=
  let x := f.1
  let y := f.2.1
  let w := f.2.2.1
  let h := f.2.2.2
  let roi : Grid := ((g.drop y).take h).map fun row => (row.drop x).take w
  let blurred := bilateralFilter k radius roi
  g.mapIdx fun yi row =>
    if y ≤ yi ∧ yi < y + h then
      row.mapIdx fun xi p =>
        if x ≤ xi ∧ xi < x + w then
          blendPixel p (gridGet blurred ((yi : ℤ) - (y : ℤ)) ((xi : ℤ) - (x : ℤ)))
        else p
    else row

/-- `PhotoEditorMain.portrait_mode` at the image level (source lines
474-495): global rebalance first; then, when the external face locator
returned rectangles, the per-face smoothing blend, and otherwise the
whole-frame bilateral smoothing (`d = 9`, radius 4). -/
def portraitImage (k : ℤ → ℤ → ℕ → ℚ) (faces : List (ℕ × ℕ × ℕ × ℕ))
    (g : Grid) : Grid :=
  let a := rebalanceImage g
  if 0 < faces.length then faces.foldl (applyFace k 4) a
  else bilateralFilter k 4 a

/-- An all-black `w` by `h` frame. -/
def blackGrid (w h : ℕ) : Grid :=
  List.replicate h (List.replicate w ((0, 0, 0) : Pixel))

/-! Concrete inputs used by witnesses and counterexamples. -/

/-- Identity placeholders for the library-backed filters; the committed
document shape does not depend on them. -/
def Fid : Filters := ⟨id, id, id, id, id⟩

/-- A single black pixel image. -/
def imgBlack1 : Img := [(0, 0, 0)]

/-- A single mid-gray pixel image. -/
def imgGray1 : Img := [(100, 100, 100)]

/-- A freshly loaded document over the black image. -/
def docBlack : Document := ⟨[imgBlack1], imgBlack1, defaultAdjustments⟩

/-- A document whose displayed image is a pending (uncommitted) preview
that differs from the history baseline. -/
def docPending : Document := ⟨[imgBlack1], imgGray1, defaultAdjustments⟩

/-- Adjustments with a non-default pending brightness. -/
def adjB50 : Adjustments := { defaultAdjustments with brightness := 50 }

/-- A two-entry-history document carrying pending adjustments. -/
def docTwo : Document := ⟨[imgBlack1, imgGray1], imgGray1, adjB50⟩

/-- A constant smoothing kernel; any positive kernel instantiates the
bilateral weight parameter. -/
def kOne : ℤ → ℤ → ℕ → ℚ := fun _ _ _ => 1

/-! ## Theorems -/

/-- C10: requesting an effect with a name outside the fixed catalog
leaves the document completely unchanged: no history entry is appended,
the current image is not modified, and the adjustments are not reset. -/
theorem invalid_effect_noop (F : Filters) (effect : String) (doc : Document)
    (h : effect ∉ effectCatalog) : apply_effect F effect doc = doc := by
  simp only [effectCatalog, List.mem_cons, List.not_mem_nil, or_false, not_or] at h
  obtain ⟨h1, h2, h3, h4, h5, h6, h7, h8⟩ := h
  simp [apply_effect, h1, h2, h3, h4, h5, h6, h7, h8]

theorem invalid_effect_noop_witness :
    "gamma" ∉ effectCatalog ∧ apply_effect Fid "gamma" docBlack = docBlack :=
  ⟨by decide, invalid_effect_noop Fid "gamma" docBlack (by decide)⟩

/-- C4 (amended): `undo` with a one-entry history returns false and
changes nothing; with two or more entries it removes exactly the last
entry, sets the displayed image to the new last entry and returns true —
but it leaves the adjustments unchanged instead of resetting them. -/
theorem undo_behavior (doc : Document) :
    (doc.history.length = 1 → doc.undo = (doc, false)) ∧
    (2 ≤ doc.history.length →
      (doc.undo).2 = true ∧
      (doc.undo).1.history = doc.history.dropLast ∧
      (doc.undo).1.history.length + 1 = doc.history.length ∧
      (doc.undo).1.pil = doc.history.dropLast.getLastD [] ∧
      (doc.undo).1.adjustments = doc.adjustments) := by
  constructor
  · intro h
    simp [Document.undo, h]
  · intro h
    have h1 : 1 < doc.history.length := h
    have hlen : doc.history.dropLast.length + 1 = doc.history.length := by
      simp only [List.length_dropLast]
      omega
    simp only [Document.undo, if_pos h1]
    refine ⟨trivial, trivial, ?_, trivial, trivial⟩
    simpa using hlen

theorem undo_behavior_witness :
    (docBlack.history.length = 1 ∧ docBlack.undo = (docBlack, false)) ∧
    (2 ≤ docTwo.history.length ∧ (docTwo.undo).2 = true) :=
  ⟨⟨by decide, (undo_behavior docBlack).1 (by decide)⟩,
   ⟨by decide, ((undo_behavior docTwo).2 (by decide)).1⟩⟩

/-- C4 counterexample: on a two-entry document carrying pending
adjustments, `undo` succeeds but does not reset the adjustments to their
defaults, contradicting the claimed reset. -/
theorem undo_no_reset_cex :
    (docTwo.undo).2 = true ∧ (docTwo.undo).1.adjustments ≠ defaultAdjustments := by
  decide

/-- C3 (amended): every committed effect grows the history by exactly 1,
but only the eight string-dispatched effects reset the adjustments to
their defaults; `rotate90`, `flip_horizontal`, `portrait_mode` and
`auto_enhance` push a history entry and leave the adjustments unchanged. -/
theorem commit_growth_spec :
    (∀ (F : Filters) (effect : String) (doc : Document), effect ∈ effectCatalog →
      (apply_effect F effect doc).history.length = doc.history.length + 1 ∧
      (apply_effect F effect doc).adjustments = defaultAdjustments) ∧
    (∀ (f : Img → Img) (doc : Document),
      (rotate90 f doc).history.length = doc.history.length + 1 ∧
      (rotate90 f doc).adjustments = doc.adjustments) ∧
    (∀ (f : Img → Img) (doc : Document),
      (flip_horizontal f doc).history.length = doc.history.length + 1 ∧
      (flip_horizontal f doc).adjustments = doc.adjustments) ∧
    (∀ (f : Img → Img) (doc : Document),
      (portrait_mode f doc).history.length = doc.history.length + 1 ∧
      (portrait_mode f doc).adjustments = doc.adjustments) ∧
    (∀ (f : Img → Img) (doc : Document),
      (auto_enhance f doc).history.length = doc.history.length + 1 ∧
      (auto_enhance f doc).adjustments = doc.adjustments) := by
  refine ⟨?_, ?_, ?_, ?_, ?_⟩
  · intro F effect doc h
    fin_cases h <;>
      simp [apply_effect, commitEffectImage, Document.push, Document.reset_adjustments]
  all_goals
    intro f doc
    simp [rotate90, flip_horizontal, portrait_mode, auto_enhance, Document.push]

theorem commit_growth_spec_witness :
    "red" ∈ effectCatalog ∧
    (apply_effect Fid "red" docTwo).history.length = docTwo.history.length + 1 ∧
    (apply_effect Fid "red" docTwo).adjustments = defaultAdjustments :=
  ⟨by decide, commit_growth_spec.1 Fid "red" docTwo (by decide)⟩

/-- C3 counterexample: `rotate90` on a document with pending adjustments
appends a history entry but leaves the adjustments at their non-default
values, contradicting the claimed reset for the rotate operator. -/
theorem rotate90_no_reset_cex :
    (rotate90 id docTwo).history.length = docTwo.history.length + 1 ∧
    (rotate90 id docTwo).adjustments ≠ defaultAdjustments := by
  decide

/-- C1 (amended): committing a catalog effect applies the operator to
the currently displayed image `doc.pil` — the live preview — appends the
result to the history and resets the adjustments; a pending slider
preview is therefore baked into the new history entry, not discarded. -/
theorem apply_effect_commits_preview (F : Filters) (effect : String)
    (doc : Document) (h : effect ∈ effectCatalog) :
    apply_effect F effect doc =
      { history := doc.history ++ [effectFn F effect doc.pil],
        pil := effectFn F effect doc.pil,
        adjustments := defaultAdjustments } := by
  fin_cases h <;>
    simp [apply_effect, effectFn, commitEffectImage, Document.push,
      Document.reset_adjustments]

theorem apply_effect_commits_preview_witness :
    "red" ∈ effectCatalog ∧
    apply_effect Fid "red" docPending =
      { history := docPending.history ++ [effectFn Fid "red" docPending.pil],
        pil := effectFn Fid "red" docPending.pil,
        adjustments := defaultAdjustments } :=
  ⟨by decide, apply_effect_commits_preview Fid "red" docPending (by decide)⟩

/-- C1 counterexample: on a document whose displayed image is a pending
preview differing from the baseline, committing the `red` effect appends
an entry different from the operator applied to `history.last`, so the
commit did not act on the clean baseline. -/
theorem apply_effect_on_preview_cex :
    (apply_effect Fid "red" docPending).history ≠
      docPending.history ++ [effectRed (docPending.history.getLastD [])] := by
  decide

/-- C7: the adjustment-preview recomputation never touches the history
(so the baseline image is not mutated) or the stored parameters, its
output is a function of the baseline and the parameters alone (byte
identical across invocations, independent of the previously displayed
preview), and re-invoking it is idempotent: each run starts from the
baseline, not from the previous preview. -/
theorem preview_pure :
    (∀ doc : Document,
      (apply_adjustments_preview doc).history = doc.history ∧
      (apply_adjustments_preview doc).adjustments = doc.adjustments) ∧
    (∀ d1 d2 : Document, d1.history = d2.history → d1.adjustments = d2.adjustments →
      (apply_adjustments_preview d1).pil = (apply_adjustments_preview d2).pil) ∧
    (∀ doc : Document,
      apply_adjustments_preview (apply_adjustments_preview doc) =
        apply_adjustments_preview doc) := by
  refine ⟨fun doc => ⟨rfl, rfl⟩, fun d1 d2 h1 h2 => ?_, fun doc => rfl⟩
  simp [apply_adjustments_preview, h1, h2]

theorem preview_pure_witness :
    (apply_adjustments_preview docPending).pil =
      (apply_adjustments_preview docBlack).pil :=
  preview_pure.2.1 docPending docBlack rfl rfl

theorem clip255_eq_self {x : ℝ} (h0 : 0 ≤ x) (h1 : x ≤ 255) : clip255 x = x := by
  unfold clip255
  rw [max_eq_right h0, min_eq_right h1]

theorem clampK_nonneg (v : ℝ) : 0 ≤ clampK v := le_max_left 0 _

theorem clampK_le_255 (v : ℝ) : clampK v ≤ 255 := by
  unfold clampK
  exact max_le (by norm_num) (min_le_left _ _)

theorem clampK_eq_self {v : ℝ} (h0 : 0 ≤ v) (h1 : v ≤ 255) : clampK v = v := by
  unfold clampK
  rw [min_eq_right h1, max_eq_right h0]

theorem floorByte_intCast (n : ℤ) : floorByte (n : ℝ) = n.toNat := by
  unfold floorByte
  rw [Int.floor_intCast]

theorem floorByte_natCast (n : ℕ) : floorByte (n : ℝ) = n := by
  unfold floorByte
  rw [Int.floor_natCast]
  exact Int.toNat_natCast n

/-- The whole adjustment pipeline on a black pixel with neutral contrast,
saturation and tone parameters: only the brightness addition acts (the
white-balance gains multiply zero). -/
theorem preview_pixel_black (ad : Adjustments) (hc : ad.contrast = 0)
    (hs : ad.saturation = 0) (hsh : ad.shadows = 0) (hhl : ad.highlights = 0)
    (hb0 : 0 ≤ ad.brightness) (hb255 : ad.brightness ≤ 255) :
    preview_pixel ad (0, 0, 0) =
      (ad.brightness.toNat, ad.brightness.toNat, ad.brightness.toNat) := by
  have hb0R : (0 : ℝ) ≤ (ad.brightness : ℝ) := by exact_mod_cast hb0
  have hb255R : ((ad.brightness : ℤ) : ℝ) ≤ 255 := by exact_mod_cast hb255
  have hclip0 : clip255 0 = 0 := clip255_eq_self le_rfl (by norm_num)
  have hclipb : clip255 (ad.brightness : ℝ) = (ad.brightness : ℝ) :=
    clip255_eq_self hb0R hb255R
  unfold preview_pixel adjust_channels
  simp only [hc, hs, hsh, hhl, Nat.cast_zero, zero_mul, hclip0, zero_add,
    Int.cast_zero, zero_div, add_zero, hclipb, mul_one, ne_eq,
    not_true_eq_false, if_false, or_self, sub_add_cancel, floorByte_intCast]

/-- `on_slider` on the freshly loaded black document stores the raw
brightness value and previews with it: the resulting pixel is the raw
value on every channel, with no clamping to the declared -100..100
range. -/
theorem on_slider_brightness_black (v : ℤ) (h0 : 0 ≤ v) (h255 : v ≤ 255) :
    (on_slider ParamKey.brightness v docBlack).pil = [(v.toNat, v.toNat, v.toNat)] := by
  have hpix : preview_pixel (setParam ParamKey.brightness v docBlack.adjustments) (0, 0, 0)
      = (v.toNat, v.toNat, v.toNat) :=
    preview_pixel_black _ rfl rfl rfl rfl h0 h255
  show List.map (preview_pixel (setParam ParamKey.brightness v docBlack.adjustments)) imgBlack1
      = [(v.toNat, v.toNat, v.toNat)]
  rw [show imgBlack1 = [((0, 0, 0) : Pixel)] from rfl, List.map_cons, List.map_nil, hpix]

/-- C5 (amended): the pipeline uses slider values exactly as stored,
with no clamping to the declared parameter ranges: a brightness value
`v` in 0..255 (including the out-of-range values above 100) brightens a
black pixel to `(v, v, v)`, so out-of-range values act with their full
magnitude rather than as the nearest in-range value. -/
theorem slider_value_unclamped (v : ℤ) (h0 : 0 ≤ v) (h255 : v ≤ 255) :
    (on_slider ParamKey.brightness v docBlack).pil = [(v.toNat, v.toNat, v.toNat)] :=
  on_slider_brightness_black v h0 h255

theorem slider_value_unclamped_witness :
    (0 : ℤ) ≤ 200 ∧ (200 : ℤ) ≤ 255 ∧
    (on_slider ParamKey.brightness 200 docBlack).pil =
      [((200 : ℤ).toNat, (200 : ℤ).toNat, (200 : ℤ).toNat)] :=
  ⟨by norm_num, by norm_num, slider_value_unclamped 200 (by norm_num) (by norm_num)⟩

/-- C5 counterexample: the out-of-range brightness 200 produces a
different preview than the nearest in-range value 100, so values are not
clamped to their declared range before use. -/
theorem slider_out_of_range_cex :
    (on_slider ParamKey.brightness 200 docBlack).pil ≠
      (on_slider ParamKey.brightness 100 docBlack).pil := by
  rw [on_slider_brightness_black 200 (by norm_num) (by norm_num),
    on_slider_brightness_black 100 (by norm_num) (by norm_num)]
  decide

/-! Numeric bounds on the natural logarithms appearing in the 6500K
white-balance gains, derived from the Mathlib decimal bounds on `exp 1`. -/

theorem exp_four_eq : Real.exp 4 = Real.exp 1 ^ (4 : ℕ) := by
  rw [← Real.exp_nat_mul]
  norm_num

theorem exp_four_lt : Real.exp 4 < 54.5981501 := by
  rw [exp_four_eq]
  calc Real.exp 1 ^ (4 : ℕ) < 2.7182818286 ^ (4 : ℕ) := by
        exact pow_lt_pow_left Real.exp_one_lt_d9 (Real.exp_pos 1).le (by norm_num)
    _ < 54.5981501 := by norm_num

theorem exp_four_gt : (54.59815 : ℝ) < Real.exp 4 := by
  rw [exp_four_eq]
  calc (54.59815 : ℝ) < 2.7182818283 ^ (4 : ℕ) := by norm_num
    _ < Real.exp 1 ^ (4 : ℕ) := by
        exact pow_lt_pow_left Real.exp_one_gt_d9 (by norm_num) (by norm_num)

theorem exp_le_inv_one_sub {x : ℝ} (h1 : x < 1) : Real.exp x ≤ 1 / (1 - x) := by
  have h := Real.add_one_le_exp (-x)
  rw [Real.exp_neg] at h
  have hx : 0 < 1 - x := by linarith
  have hepos : 0 < Real.exp x := Real.exp_pos x
  have h2 : 1 - x ≤ (Real.exp x)⁻¹ := by linarith
  rw [le_div_iff hx]
  calc Real.exp x * (1 - x) ≤ Real.exp x * (Real.exp x)⁻¹ :=
        mul_le_mul_of_nonneg_left h2 hepos.le
    _ = 1 := mul_inv_cancel₀ (ne_of_gt hepos)

theorem log65_lb : (4.14 : ℝ) ≤ Real.log 65 := by
  rw [Real.le_log_iff_exp_le (by norm_num : (0 : ℝ) < 65)]
  have h : Real.exp 4.14 = Real.exp 4 * Real.exp 0.14 := by
    rw [← Real.exp_add]
    norm_num
  rw [h]
  calc Real.exp 4 * Real.exp 0.14 ≤ 54.5981501 * (1 / (1 - 0.14)) := by
        exact mul_le_mul exp_four_lt.le (exp_le_inv_one_sub (by norm_num))
          (Real.exp_pos _).le (by norm_num)
    _ ≤ 65 := by norm_num

theorem log65_ub : Real.log 65 ≤ 4.183 := by
  rw [Real.log_le_iff_le_exp (by norm_num : (0 : ℝ) < 65)]
  have h : Real.exp 4.183 = Real.exp 4 * (Real.exp 0.0915 * Real.exp 0.0915) := by
    rw [← Real.exp_add, ← Real.exp_add]
    norm_num
  rw [h]
  have h1 : (1.0915 : ℝ) ≤ Real.exp 0.0915 := by
    have := Real.add_one_le_exp (0.0915 : ℝ)
    linarith
  calc (65 : ℝ) ≤ 54.59815 * (1.0915 * 1.0915) := by norm_num
    _ ≤ Real.exp 4 * (Real.exp 0.0915 * Real.exp 0.0915) := by
        exact mul_le_mul exp_four_gt.le
          (mul_le_mul h1 h1 (by norm_num) (Real.exp_pos _).le)
          (by norm_num) (Real.exp_pos _).le

theorem log55_lb : (4.0064 : ℝ) ≤ Real.log 55 := by
  rw [Real.le_log_iff_exp_le (by norm_num : (0 : ℝ) < 55)]
  have h : Real.exp 4.0064 = Real.exp 4 * Real.exp 0.0064 := by
    rw [← Real.exp_add]
    norm_num
  rw [h]
  calc Real.exp 4 * Real.exp 0.0064 ≤ 54.5981501 * (1 / (1 - 0.0064)) := by
        exact mul_le_mul exp_four_lt.le (exp_le_inv_one_sub (by norm_num))
          (Real.exp_pos _).le (by norm_num)
    _ ≤ 55 := by norm_num

theorem log55_ub : Real.log 55 ≤ 4.0429 := by
  rw [Real.log_le_iff_le_exp (by norm_num : (0 : ℝ) < 55)]
  have h : Real.exp 4.0429 = Real.exp 4 * Real.exp 0.0429 := by
    rw [← Real.exp_add]
    norm_num
  rw [h]
  have h1 : (1.0429 : ℝ) ≤ Real.exp 0.0429 := by
    have := Real.add_one_le_exp (0.0429 : ℝ)
    linarith
  calc (55 : ℝ) ≤ 54.59815 * 1.0429 := by norm_num
    _ ≤ Real.exp 4 * Real.exp 0.0429 := by
        exact mul_le_mul exp_four_gt.le h1 (by norm_num) (Real.exp_pos _).le

/-! Kelvin gain facts. -/

theorem gains_bounds (k : ℤ) :
    (0 ≤ (kelvin_to_rgb_gains k).1 ∧ (kelvin_to_rgb_gains k).1 ≤ 1) ∧
    (0 ≤ (kelvin_to_rgb_gains k).2.1 ∧ (kelvin_to_rgb_gains k).2.1 ≤ 1) ∧
    (0 ≤ (kelvin_to_rgb_gains k).2.2 ∧ (kelvin_to_rgb_gains k).2.2 ≤ 1) := by
  have h255 : ∀ x : ℝ, 0 ≤ x → x ≤ 255 → 0 ≤ x / 255 ∧ x / 255 ≤ 1 := by
    intro x h0 h1
    refine ⟨by positivity, ?_⟩
    rw [div_le_one (by norm_num)]
    exact h1
  simp only [kelvin_to_rgb_gains]
  refine ⟨?_, ?_, ?_⟩
  · split_ifs with h
    · exact h255 255 (by norm_num) le_rfl
    · exact h255 _ (clampK_nonneg _) (clampK_le_255 _)
  · exact h255 _ (clampK_nonneg _) (clampK_le_255 _)
  · split_ifs with h1 h2
    · exact h255 255 (by norm_num) le_rfl
    · exact h255 0 le_rfl (by norm_num)
    · exact h255 _ (clampK_nonneg _) (clampK_le_255 _)

theorem gains6500_r : (kelvin_to_rgb_gains 6500).1 = 1 := by
  simp only [kelvin_to_rgb_gains]
  rw [if_pos (by norm_num : ((6500 : ℤ) : ℝ) / 100 ≤ 66)]
  norm_num

theorem gains6500_g_eq : (kelvin_to_rgb_gains 6500).2.1
    = (99.4708025861 * Real.log 65 - 161.1195681661) / 255 := by
  simp only [kelvin_to_rgb_gains]
  rw [if_pos (by norm_num : ((6500 : ℤ) : ℝ) / 100 ≤ 66),
    show ((6500 : ℤ) : ℝ) / 100 = 65 by norm_num,
    clampK_eq_self (by nlinarith [log65_lb]) (by nlinarith [log65_ub])]

theorem gains6500_b_eq : (kelvin_to_rgb_gains 6500).2.2
    = (138.5177312231 * Real.log 55 - 305.0447927307) / 255 := by
  simp only [kelvin_to_rgb_gains]
  rw [if_neg (by norm_num : ¬(66 : ℝ) ≤ ((6500 : ℤ) : ℝ) / 100),
    if_neg (by norm_num : ¬((6500 : ℤ) : ℝ) / 100 ≤ 19),
    show ((6500 : ℤ) : ℝ) / 100 - 10 = 55 by norm_num,
    clampK_eq_self (by nlinarith [log55_lb]) (by nlinarith [log55_ub])]

theorem gains6500_g_ge : (0.98 : ℝ) ≤ (kelvin_to_rgb_gains 6500).2.1 := by
  rw [gains6500_g_eq, le_div_iff (by norm_num : (0 : ℝ) < 255)]
  nlinarith [log65_lb]

theorem gains6500_g_lt_one : (kelvin_to_rgb_gains 6500).2.1 < 1 := by
  rw [gains6500_g_eq, div_lt_one (by norm_num : (0 : ℝ) < 255)]
  nlinarith [log65_ub]

theorem gains6500_b_ge : (0.98 : ℝ) ≤ (kelvin_to_rgb_gains 6500).2.2 := by
  rw [gains6500_b_eq, le_div_iff (by norm_num : (0 : ℝ) < 255)]
  nlinarith [log55_lb]

theorem gains6500_b_lt_one : (kelvin_to_rgb_gains 6500).2.2 < 1 := by
  rw [gains6500_b_eq, div_lt_one (by norm_num : (0 : ℝ) < 255)]
  nlinarith [log55_ub]

/-- C6: for every Kelvin input in [2000, 10000] the three gains returned
by `kelvin_to_rgb_gains` each lie in [0, 1], and at 6500K every gain is
within 1/50 of 1.0 (the red gain is exactly 1). -/
theorem kelvin_gains_range :
    (∀ k : ℤ, 2000 ≤ k → k ≤ 10000 →
      (0 ≤ (kelvin_to_rgb_gains k).1 ∧ (kelvin_to_rgb_gains k).1 ≤ 1) ∧
      (0 ≤ (kelvin_to_rgb_gains k).2.1 ∧ (kelvin_to_rgb_gains k).2.1 ≤ 1) ∧
      (0 ≤ (kelvin_to_rgb_gains k).2.2 ∧ (kelvin_to_rgb_gains k).2.2 ≤ 1)) ∧
    (|(kelvin_to_rgb_gains 6500).1 - 1| ≤ 1 / 50 ∧
     |(kelvin_to_rgb_gains 6500).2.1 - 1| ≤ 1 / 50 ∧
     |(kelvin_to_rgb_gains 6500).2.2 - 1| ≤ 1 / 50) := by
  refine ⟨fun k _ _ => gains_bounds k, ?_, ?_, ?_⟩
  · rw [gains6500_r]
    norm_num
  · rw [abs_le]
    have h1 := gains6500_g_ge
    have h2 := (gains_bounds 6500).2.1.2
    constructor <;> linarith
  · rw [abs_le]
    have h1 := gains6500_b_ge
    have h2 := (gains_bounds 6500).2.2.2
    constructor <;> linarith

theorem kelvin_gains_range_witness :
    ((2000 : ℤ) ≤ 6500 ∧ (6500 : ℤ) ≤ 10000) ∧
    (0 ≤ (kelvin_to_rgb_gains 6500).1 ∧ (kelvin_to_rgb_gains 6500).1 ≤ 1) :=
  ⟨⟨by norm_num, by norm_num⟩,
   (kelvin_gains_range.1 6500 (by norm_num) (by norm_num)).1⟩

/-- What the pipeline computes with all parameters at their defaults:
the red channel passes through unchanged (red gain 1 at 6500K), while
the green and blue channels are scaled by the 6500K gains and floored.
-/
theorem preview_default_pixel (r g b : ℕ) (hr : r ≤ 255) (hg : g ≤ 255)
    (hb : b ≤ 255) :
    preview_pixel defaultAdjustments (r, g, b) =
      (r, floorByte ((g : ℝ) * (kelvin_to_rgb_gains 6500).2.1),
          floorByte ((b : ℝ) * (kelvin_to_rgb_gains 6500).2.2)) := by
  obtain ⟨hg0, hg1⟩ := (gains_bounds 6500).2.1
  obtain ⟨hb0, hb1⟩ := (gains_bounds 6500).2.2
  have hrR : ((r : ℕ) : ℝ) ≤ 255 := by exact_mod_cast hr
  have hgR : ((g : ℕ) : ℝ) ≤ 255 := by exact_mod_cast hg
  have hbR : ((b : ℕ) : ℝ) ≤ 255 := by exact_mod_cast hb
  have cr : clip255 ((r : ℕ) : ℝ) = ((r : ℕ) : ℝ) :=
    clip255_eq_self (Nat.cast_nonneg r) hrR
  have cgv : clip255 (((g : ℕ) : ℝ) * (kelvin_to_rgb_gains 6500).2.1)
      = ((g : ℕ) : ℝ) * (kelvin_to_rgb_gains 6500).2.1 := by
    refine clip255_eq_self (mul_nonneg (Nat.cast_nonneg g) hg0) ?_
    calc ((g : ℕ) : ℝ) * (kelvin_to_rgb_gains 6500).2.1
        ≤ ((g : ℕ) : ℝ) * 1 := mul_le_mul_of_nonneg_left hg1 (Nat.cast_nonneg g)
      _ ≤ 255 := by rw [mul_one]; exact hgR
  have cbv : clip255 (((b : ℕ) : ℝ) * (kelvin_to_rgb_gains 6500).2.2)
      = ((b : ℕ) : ℝ) * (kelvin_to_rgb_gains 6500).2.2 := by
    refine clip255_eq_self (mul_nonneg (Nat.cast_nonneg b) hb0) ?_
    calc ((b : ℕ) : ℝ) * (kelvin_to_rgb_gains 6500).2.2
        ≤ ((b : ℕ) : ℝ) * 1 := mul_le_mul_of_nonneg_left hb1 (Nat.cast_nonneg b)
      _ ≤ 255 := by rw [mul_one]; exact hbR
  unfold preview_pixel adjust_channels
  simp only [show defaultAdjustments.kelvin = 6500 from rfl,
    show defaultAdjustments.brightness = 0 from rfl,
    show defaultAdjustments.contrast = 0 from rfl,
    show defaultAdjustments.saturation = 0 from rfl,
    show defaultAdjustments.shadows = 0 from rfl,
    show defaultAdjustments.highlights = 0 from rfl,
    gains6500_r, mul_one, Int.cast_zero, add_zero, zero_div, ne_eq,
    not_true_eq_false, or_self, if_false, cr, cgv, cbv, sub_add_cancel,
    floorByte_natCast]

/-- C2 (amended): with the default parameters the pipeline is not the
identity: the red channel of every pixel survives unchanged, but the
green and blue channels are multiplied by the 6500K white-balance gains
(each strictly below 1) and floored, so the output is byte-identical to
the base only on pixels whose scaled green/blue floor back to
themselves. -/
theorem preview_default_formula (r g b : ℕ) (hr : r ≤ 255) (hg : g ≤ 255)
    (hb : b ≤ 255) :
    preview_pixel defaultAdjustments (r, g, b) =
      (r, floorByte ((g : ℝ) * (kelvin_to_rgb_gains 6500).2.1),
          floorByte ((b : ℝ) * (kelvin_to_rgb_gains 6500).2.2)) :=
  preview_default_pixel r g b hr hg hb

theorem preview_default_formula_witness :
    (10 ≤ 255 ∧ 20 ≤ 255 ∧ 30 ≤ 255) ∧
    preview_pixel defaultAdjustments (10, 20, 30) =
      (10, floorByte ((20 : ℝ) * (kelvin_to_rgb_gains 6500).2.1),
           floorByte ((30 : ℝ) * (kelvin_to_rgb_gains 6500).2.2)) := by
  refine ⟨⟨by norm_num, by norm_num, by norm_num⟩, ?_⟩
  have h := preview_default_formula 10 20 30 (by norm_num) (by norm_num) (by norm_num)
  simpa using h

/-- C2 counterexample: the pure-green pixel (0, 255, 0) is not fixed by
the default-parameter pipeline — the 6500K green gain is strictly below
1, so green 255 is scaled down and floors below 255. -/
theorem preview_default_not_identity :
    preview_pixel defaultAdjustments (0, 255, 0) ≠ (0, 255, 0) := by
  rw [preview_default_pixel 0 255 0 (by norm_num) le_rfl (by norm_num)]
  have hgate : ((255 : ℕ) : ℝ) * (kelvin_to_rgb_gains 6500).2.1 < 255 := by
    have h1 := gains6500_g_lt_one
    have h0 := (gains_bounds 6500).2.1.1
    have hc : ((255 : ℕ) : ℝ) = 255 := by norm_num
    rw [hc]
    nlinarith
  have hfl : Int.floor (((255 : ℕ) : ℝ) * (kelvin_to_rgb_gains 6500).2.1) < 255 := by
    rw [Int.floor_lt]
    exact_mod_cast hgate
  intro hEq
  have h2 := congrArg (fun t : Pixel => t.2.1) hEq
  simp only at h2
  unfold floorByte at h2
  omega

/-- Summing any 256-bin occurrence count over a pixel list whose counted
feature stays below 256 recovers the number of pixels. -/
theorem sum_countP_eq_length (img : Img) (f : Pixel → ℕ)
    (hf : ∀ p ∈ img, f p < 256) :
    (∑ v in Finset.range 256, img.countP fun p => decide (f p = v)) = img.length := by
  induction img with
  | nil => simp
  | cons a t ih =>
    have ha : f a < 256 := hf a (List.mem_cons_self a t)
    have ht : ∀ p ∈ t, f p < 256 := fun p hp => hf p (List.mem_cons_of_mem a hp)
    simp only [List.countP_cons, List.length_cons, decide_eq_true_eq]
    rw [Finset.sum_add_distrib, ih ht, Finset.sum_ite_eq]
    simp [Finset.mem_range.mpr ha]

/-- The nat-division luma of the embedding is exactly the floor of the
decimal-weighted BT.709 luma of the source expression. -/
theorem lumaFloor_is_floor (p : Pixel) :
    (lumaFloor p : ℤ) =
      Int.floor (0.2126 * (p.1 : ℚ) + 0.7152 * (p.2.1 : ℚ) + 0.0722 * (p.2.2 : ℚ)) := by
  have hsum : (0.2126 * (p.1 : ℚ) + 0.7152 * (p.2.1 : ℚ) + 0.0722 * (p.2.2 : ℚ))
      = ((2126 * p.1 + 7152 * p.2.1 + 722 * p.2.2 : ℕ) : ℚ) / 10000 := by
    push_cast
    ring
  have h : ((2126 * p.1 + 7152 * p.2.1 + 722 * p.2.2 : ℕ) : ℚ) / 10000
      = (((2126 * p.1 + 7152 * p.2.1 + 722 * p.2.2 : ℕ) : ℤ) : ℚ) / ((10000 : ℕ) : ℚ) := by
    push_cast
    ring
  rw [hsum, h, Rat.floor_intCast_div_natCast]
  unfold lumaFloor
  omega

/-- C8: on any 8-bit RGB image the four histogram arrays (red, green,
blue and floored luma, each spanning the 256 possible byte values) sum
to width times height, the reported total is width times height, and the
luma feature being counted is the rounded-down BT.709 luma. -/
theorem histogram_sums (w h : ℕ) (img : Img) (hlen : img.length = w * h)
    (hpx : ∀ p ∈ img, p.1 ≤ 255 ∧ p.2.1 ≤ 255 ∧ p.2.2 ≤ 255) :
    (∑ v in Finset.range 256, (compute_histogram img).1 v) = w * h ∧
    (∑ v in Finset.range 256, (compute_histogram img).2.1 v) = w * h ∧
    (∑ v in Finset.range 256, (compute_histogram img).2.2.1 v) = w * h ∧
    (∑ v in Finset.range 256, (compute_histogram img).2.2.2.1 v) = w * h ∧
    (compute_histogram img).2.2.2.2 = w * h ∧
    (∀ p : Pixel, (lumaFloor p : ℤ) =
      Int.floor (0.2126 * (p.1 : ℚ) + 0.7152 * (p.2.1 : ℚ) + 0.0722 * (p.2.2 : ℚ))) := by
  have hr : ∀ p ∈ img, p.1 < 256 := fun p hp => Nat.lt_succ_of_le (hpx p hp).1
  have hg : ∀ p ∈ img, p.2.1 < 256 := fun p hp => Nat.lt_succ_of_le (hpx p hp).2.1
  have hb : ∀ p ∈ img, p.2.2 < 256 := fun p hp => Nat.lt_succ_of_le (hpx p hp).2.2
  have hl : ∀ p ∈ img, lumaFloor p < 256 := by
    intro p hp
    obtain ⟨h1, h2, h3⟩ := hpx p hp
    unfold lumaFloor
    omega
  rw [← hlen]
  exact ⟨sum_countP_eq_length img _ hr, sum_countP_eq_length img _ hg,
    sum_countP_eq_length img _ hb, sum_countP_eq_length img _ hl, rfl,
    lumaFloor_is_floor⟩

theorem histogram_sums_witness :
    ([((0, 0, 0) : Pixel), (255, 255, 255), (10, 20, 30), (1, 2, 3)].length = 2 * 2) ∧
    (∑ v in Finset.range 256,
      (compute_histogram [((0, 0, 0) : Pixel), (255, 255, 255), (10, 20, 30), (1, 2, 3)]).1 v)
      = 2 * 2 :=
  ⟨by decide,
   (histogram_sums 2 2 [(0, 0, 0), (255, 255, 255), (10, 20, 30), (1, 2, 3)]
     (by decide) (by decide)).1⟩

theorem getD_replicate {α : Type _} (n : ℕ) (a d : α) (i : ℕ) :
    (List.replicate n a).getD i d = if i < n then a else d := by
  simp [List.getD_eq_getElem?_getD, List.getElem?_replicate,
    apply_ite (fun o : Option α => o.getD d)]

theorem gridGet_blackGrid (w h : ℕ) (y x : ℤ) :
    gridGet (blackGrid w h) y x = (0, 0, 0) := by
  unfold gridGet blackGrid
  rw [getD_replicate]
  split_ifs
  · rw [getD_replicate]
    split_ifs <;> rfl
  · simp

/-- A normalised weighted average of all-zero samples is zero, whatever
the weights: the numerator sums vanish. -/
theorem bilateralAt_blackGrid (k : ℤ → ℤ → ℕ → ℚ) (radius w h y x : ℕ) :
    bilateralAt k radius (blackGrid w h) y x = (0, 0, 0) := by
  unfold bilateralAt
  simp [gridGet_blackGrid, List.map_map, Function.comp_def, roundByte,
    List.map_const', List.sum_replicate]

theorem bilateralFilter_blackGrid (k : ℤ → ℤ → ℕ → ℚ) (radius w h : ℕ) :
    bilateralFilter k radius (blackGrid w h) = blackGrid w h := by
  unfold bilateralFilter
  rw [show (blackGrid w h).length = h by simp [blackGrid]]
  apply List.ext_getElem
  · simp [blackGrid]
  · intro i h1 h2
    have hi : i < h := by simpa [blackGrid] using h2
    simp only [List.getElem_map, List.getElem_range]
    rw [show (blackGrid w h).getD i [] = List.replicate w ((0, 0, 0) : Pixel) by
      unfold blackGrid
      rw [getD_replicate]
      exact if_pos hi]
    rw [show (blackGrid w h)[i] = List.replicate w ((0, 0, 0) : Pixel) by
      simp [blackGrid]]
    rw [List.eq_replicate]
    refine ⟨by simp, ?_⟩
    intro b hb
    simp only [List.mem_map] at hb
    obtain ⟨xv, _, rfl⟩ := hb
    exact bilateralAt_blackGrid k radius w h i xv

theorem rebalanceImage_blackGrid (w h : ℕ) :
    rebalanceImage (blackGrid w h) = blackGrid w h := by
  unfold rebalanceImage blackGrid rebalance_pixel
  simp [List.map_replicate]

theorem portraitImage_empty_blackGrid (k : ℤ → ℤ → ℕ → ℚ) (w h : ℕ) :
    portraitImage k [] (blackGrid w h) = blackGrid w h := by
  unfold portraitImage
  simp [rebalanceImage_blackGrid, bilateralFilter_blackGrid]

/-- C9 (amended): when the face locator returns no rectangles, portrait
retouch is exactly the whole-image edge-preserving smoothing applied
after the fixed global channel rebalance (red by 19/20, green and blue
by 21/20 saturated at 255) — but the result is not always different from
the input: every all-black frame is a fixed point of both stages, so the
retouch can leave the image unchanged. -/
theorem portrait_empty_spec :
    (∀ (k : ℤ → ℤ → ℕ → ℚ) (g : Grid),
      portraitImage k [] g = bilateralFilter k 4 (rebalanceImage g)) ∧
    (∀ (k : ℤ → ℤ → ℕ → ℚ) (w h : ℕ),
      portraitImage k [] (blackGrid w h) = blackGrid w h) := by
  constructor
  · intro k g
    unfold portraitImage
    simp
  · exact portraitImage_empty_blackGrid

/-- C9 counterexample: an all-black 2 by 2 frame with an empty face list
comes back byte-identical from the portrait retouch, contradicting the
claim that the result is never equal to the input image. -/
theorem portrait_black_fixed_cex :
    portraitImage kOne [] (blackGrid 2 2) = blackGrid 2 2 :=
  portraitImage_empty_blackGrid kOne 2 2

end PhotoEditor
